import Mathlib

/- Verification model of the GR dashboard data pipeline (src/app.py).
   CSV cells are modelled as `Option String` (`none` is a missing field, pandas NaN).
   Library primitives (pandas date parsing, numeric coercion) are modelled on the
   subset of behaviour the pipeline exercises; comments mark each such model. -/

/-- A calendar date at day resolution (pandas Timestamp, always day-resolved here). -/
structure HDate where
  year : Nat
  month : Nat
  day : Nat
deriving DecidableEq, Repr

def isSpaceChar (c : Char) : Bool :=
  c == ' ' || c == '\t' || c == '\n' || c == '\r' || c == '\x0b' || c == '\x0c'

def trimChars (l : List Char) : List Char :=
  ((l.dropWhile isSpaceChar).reverse.dropWhile isSpaceChar).reverse

/-- Models python str.strip(). -/
def trimStr (s : String) : String := String.mk (trimChars s.toList)

def lowerChar (c : Char) : Char :=
  if 'A' ≤ c ∧ c ≤ 'Z' then Char.ofNat (c.toNat + 32) else c

def upperChar (c : Char) : Char :=
  if 'a' ≤ c ∧ c ≤ 'z' then Char.ofNat (c.toNat - 32) else c

/-- Models python str.lower() on the ASCII labels this data uses. -/
def lowerStr (s : String) : String := String.mk (s.toList.map lowerChar)

def upperStr (s : String) : String := String.mk (s.toList.map upperChar)

/-- Models python str(x) on an optional cell: a missing value prints as "nan". -/
def pyStr : Option String → String
  | none => ("nan")
  | some s => s

/-- Models norm_col: str(x).strip().lstrip BOM, .strip(). -/
def normCol (s : String) : String :=
  trimStr (String.mk ((trimStr s).toList.dropWhile (fun c => c == '\uFEFF')))

def prefixAt (needle hay : List Char) : Bool :=
  hay.take needle.length == needle

def hasSubChars (needle : List Char) : List Char → Bool
  | [] => needle.isEmpty
  | c :: rest => prefixAt needle (c :: rest) || hasSubChars needle rest

/-- Models the python "sub in s" substring test. -/
def containsStr (s sub : String) : Bool := hasSubChars sub.toList s.toList

/-- Models re.search of one latin letter, as used for the county-name filter. -/
def hasLetterStr (s : String) : Bool :=
  s.toList.any (fun c => ('a' ≤ c ∧ c ≤ 'z') ∨ ('A' ≤ c ∧ c ≤ 'Z'))

def idxOf? {α : Type} [BEq α] (c : α) : List α → Option Nat
  | [] => none
  | x :: xs => if x == c then some 0 else (idxOf? c xs).map (fun i => i + 1)

def natOfDigits (l : List Char) : Nat :=
  l.foldl (fun a c => a * 10 + (c.toNat - 48)) 0

/-- Models pandas.to_numeric on one cell's text: optional sign, decimal digits,
optional fractional part, surrounding whitespace tolerated; anything else
(redaction markers such as "*", text, separators) is NaN, modelled as none.
Exponent notation, not exercised by this data, is not modelled. -/
def parseNumeric (s : String) : Option Rat :=
  let cs := trimChars s.toList
  let sgn : Int := match cs with
    | '-' :: _ => -1
    | _ => 1
  let cs2 := match cs with
    | '-' :: rest => rest
    | '+' :: rest => rest
    | other => other
  let ip := cs2.takeWhile Char.isDigit
  let rest := cs2.drop ip.length
  match rest with
  | [] => if ip.isEmpty then none else some (mkRat (sgn * (natOfDigits ip : Int)) 1)
  | '.' :: fp =>
    if fp.all Char.isDigit && !(ip.isEmpty && fp.isEmpty) then
      some (mkRat (sgn * ((natOfDigits ip * 10 ^ fp.length + natOfDigits fp : Nat) : Int)) (10 ^ fp.length))
    else none
  | _ => none

/-- Models python int() truncation toward zero (astype(int)). -/
def truncInt (q : Rat) : Int :=
  if q < 0 then -((-q).floor) else q.floor

def mon3 : List String :=
  ["JAN", "FEB", "MAR", "APR", "MAY", "JUN", "JUL", "AUG", "SEP", "OCT", "NOV", "DEC"]

def monFull : List String :=
  ["JANUARY", "FEBRUARY", "MARCH", "APRIL", "MAY", "JUNE", "JULY", "AUGUST",
   "SEPTEMBER", "OCTOBER", "NOVEMBER", "DECEMBER"]

/-- strptime %y: two-digit years 00-68 are 2000s, 69-99 are 1900s. -/
def twoDigitYear (yy : Nat) : Nat := if yy ≤ 68 then 2000 + yy else 1900 + yy

/-- Models to_datetime(upper(s), format="%b%y"): exactly a 3-letter month
abbreviation followed by a 2-digit year (strptime is case-insensitive). -/
def parseMonYY (s : String) : Option HDate :=
  let cs := (upperStr s).toList
  if cs.length == 5 then
    match idxOf? (String.mk (cs.take 3)) mon3 with
    | some i =>
      let ds := cs.drop 3
      if ds.all Char.isDigit then some ⟨twoDigitYear (natOfDigits ds), i + 1, 1⟩ else none
    | none => none
  else none

/-- Models the numeric branch: to_numeric, astype(int).astype(str), then
to_datetime(format="%Y%m"), which accepts exactly 6 digits with month 01-12. -/
def parseYYYYMM (s : String) : Option HDate :=
  match parseNumeric s with
  | none => none
  | some q =>
    let n := truncInt q
    if n < 0 then none
    else
      let ds := (toString n.toNat).toList
      if ds.length == 6 then
        let y := natOfDigits (ds.take 4)
        let m := natOfDigits (ds.drop 4)
        if 1 ≤ m ∧ m ≤ 12 then some ⟨y, m, 1⟩ else none
      else none

/-- strptime %Y: one to four digits. -/
def pY (t : List Char) : Option Nat :=
  if t ≠ [] ∧ t.length ≤ 4 ∧ t.all Char.isDigit then some (natOfDigits t) else none

/-- strptime %m: one or two digits, 1-12. -/
def pM (t : List Char) : Option Nat :=
  if t ≠ [] ∧ t.length ≤ 2 ∧ t.all Char.isDigit then
    let m := natOfDigits t
    if 1 ≤ m ∧ m ≤ 12 then some m else none
  else none

/-- strptime %d: one or two digits, 1-31. -/
def pD (t : List Char) : Option Nat :=
  if t ≠ [] ∧ t.length ≤ 2 ∧ t.all Char.isDigit then
    let d := natOfDigits t
    if 1 ≤ d ∧ d ≤ 31 then some d else none
  else none

def pMon3 (t : List Char) : Option Nat :=
  (idxOf? (String.mk (t.map upperChar)) mon3).map (fun i => i + 1)

def pMonFull (t : List Char) : Option Nat :=
  (idxOf? (String.mk (t.map upperChar)) monFull).map (fun i => i + 1)

def splitOnChar (sep : Char) (l : List Char) : List (List Char) :=
  l.foldr (fun c acc => match acc with
    | [] => [[c]]
    | cur :: rest => if c == sep then [] :: (cur :: rest) else (c :: cur) :: rest) [[]]

/-- format "%Y-%m". -/
def fmtYm (cs : List Char) : Option HDate :=
  match splitOnChar '-' cs with
  | [y, m] =>
    match pY y, pM m with
    | some yv, some mv => some ⟨yv, mv, 1⟩
    | _, _ => none
  | _ => none

/-- format "%Y-%m-%d". -/
def fmtYmd (cs : List Char) : Option HDate :=
  match splitOnChar '-' cs with
  | [y, m, d] =>
    match pY y, pM m, pD d with
    | some yv, some mv, some dv => some ⟨yv, mv, dv⟩
    | _, _, _ => none
  | _ => none

/-- format "%m/%Y". -/
def fmtMY (cs : List Char) : Option HDate :=
  match splitOnChar '/' cs with
  | [m, y] =>
    match pM m, pY y with
    | some mv, some yv => some ⟨yv, mv, 1⟩
    | _, _ => none
  | _ => none

/-- format "%m/%d/%Y". -/
def fmtMdY (cs : List Char) : Option HDate :=
  match splitOnChar '/' cs with
  | [m, d, y] =>
    match pM m, pD d, pY y with
    | some mv, some dv, some yv => some ⟨yv, mv, dv⟩
    | _, _, _ => none
  | _ => none

/-- format "%b %Y". -/
def fmtBY (cs : List Char) : Option HDate :=
  match splitOnChar ' ' cs with
  | [b, y] =>
    match pMon3 b, pY y with
    | some mv, some yv => some ⟨yv, mv, 1⟩
    | _, _ => none
  | _ => none

/-- format "%B %Y". -/
def fmtBBY (cs : List Char) : Option HDate :=
  match splitOnChar ' ' cs with
  | [b, y] =>
    match pMonFull b, pY y with
    | some mv, some yv => some ⟨yv, mv, 1⟩
    | _, _ => none
  | _ => none

/-- Models the final pd.to_datetime(s, errors="coerce") dateutil fallback,
restricted to a slash-separated year/month/day shape; the library accepts
further shapes that this data and these claims never exercise. -/
def genericParse (cs : List Char) : Option HDate :=
  match splitOnChar '/' cs with
  | [y, m, d] =>
    if y.length == 4 then
      match pY y, pM m, pD d with
      | some yv, some mv, some dv => some ⟨yv, mv, dv⟩
      | _, _, _ => none
    else none
  | _ => none

/-- Models re.sub(r"\.0$", "", s): drop one trailing ".0". -/
def stripDotZero (s : String) : String :=
  let cs := s.toList
  if cs.reverse.take 2 == ['0', '.'] then String.mk (cs.take (cs.length - 2)) else s

/-- Models parse_date_series applied to one cell: stringify (NaN prints "nan"),
strip, drop trailing ".0", then try formats in the source's fillna order:
%b%y on the uppercased text, the 6-digit YYYYMM numeric route, the six
explicit formats, and finally the generic parser. First success wins. -/
def parseDateCell (cell : Option String) : Option HDate :=
  let s := stripDotZero (trimStr (pyStr cell))
  (parseMonYY s).orElse (fun _ =>
    (parseYYYYMM s).orElse (fun _ =>
      (fmtYm s.toList).orElse (fun _ =>
        (fmtYmd s.toList).orElse (fun _ =>
          (fmtMY s.toList).orElse (fun _ =>
            (fmtMdY s.toList).orElse (fun _ =>
              (fmtBY s.toList).orElse (fun _ =>
                (fmtBBY s.toList).orElse (fun _ =>
                  genericParse s.toList))))))))

/-- The fixed canonical metric vocabulary (METRICS_IN_ORDER in app.py). -/
def METRICS_IN_ORDER : List String :=
  ["A. Adjustment",
   "A. 1. Cases brought forward",
   "A. 2. Cases added during month",
   "A. 3. Total cases available",
   "A. 4. Cases discontinued",
   "A. 5. Cases carried forward",
   "B. 6. Total General Relief Cases",
   "B. 6a. Total Family Cases",
   "B. 6b. Total One-person Cases",
   "B. 6. Total General Relief Persons",
   "B. 6a. Total Family Case Persons",
   "B. 6b. Total One-person Case Persons",
   "B. 6. Total GR Expenditure (Dollars)",
   "B. 6(1). GR Expenditure in Cash",
   "B. 6(2). GR Expenditure in Kind",
   "B. 6a. Total Family Expenditure (Dollars)",
   "B. 6b. Total One-person Expenditure (Dollars)",
   "C. 7. Cases added during month",
   "C. 8. Total SSA checks disposed of",
   "C. 8a. Total SSA disposed in 1-10 days",
   "C. 9. SSA sent SSI/SSP check directly to receipient",
   "C. 10. Denial notice received",
   "D. 11. Reimbursements Cases",
   "D. 11a. SSA check received Cases",
   "D. 11b. Repaid by recipient Cases",
   "D. 11. Amount reimbursed",
   "D. 11a. Amount received in SSA check",
   "D. 11b. Amount repaid by recipient",
   "E. Net General Relief Expenditure"]

/-- The raw cell grid of one CSV file: rows of optional string cells. -/
abbrev Grid : Type := List (List (Option String))

/-- A pandas DataFrame after read_csv: column labels plus rows of cells. -/
structure Frame where
  cols : List String
  rows : List (List (Option String))
deriving DecidableEq, Repr

def blankRow (r : List (Option String)) : Bool := r.all (fun c => c.isNone)

def padTo (n : Nat) (r : List (Option String)) : List (Option String) :=
  r ++ List.replicate (n - r.length) none

/-- Models pd.read_csv(path, header=h, engine="python"): blank lines are
skipped before indexing, the row at index h supplies the labels (a missing
header cell becomes "Unnamed: i"), later rows are the data (short rows are
padded with NaN; a row wider than the header is a parse error, and a header
index beyond the file is an error — both modelled as none). -/
def readCsv (g : Grid) (h : Nat) : Option Frame :=
  let g2 := g.filter (fun r => !blankRow r)
  match g2.get? h with
  | none => none
  | some hr =>
    let labels := hr.enum.map (fun ic =>
      match ic.2 with
      | some s => s
      | none => ("Unnamed: ") ++ toString ic.1)
    let dataRows := g2.drop (h + 1)
    if dataRows.any (fun r => labels.length < r.length) then none
    else some ⟨labels, dataRows.map (padTo labels.length)⟩

/-- Models the rename table of normalize_columns. -/
def renameLabel (c : String) : String :=
  let low := lowerStr (normCol c)
  if low == ("date") || low == ("date code") || low == ("date_code") then ("Date_Code")
  else if low == ("county name") || low == ("county_name") || low == ("county") then ("County_Name")
  else if low == ("county code") || low == ("county_code") then ("County_Code")
  else if low == ("report month") || low == ("report_month") then ("Report_Month")
  else if low == ("month") then ("Month")
  else if low == ("year") then ("Year")
  else if low == ("sfy") then ("SFY")
  else if low == ("ffy") then ("FFY")
  else c

def dropLabel (c : String) : Bool :=
  let s := normCol c
  s == ("") || prefixAt ("unnamed").toList (lowerStr s).toList

/-- Models normalize_columns: drop spacer/unnamed columns, then rename
recognized identifier labels to their canonical names. -/
def normalize_columns (f : Frame) : Frame :=
  let keep := f.cols.enum.filter (fun ic => !dropLabel ic.2)
  ⟨keep.map (fun ic => renameLabel ic.2),
   f.rows.map (fun r => keep.map (fun ic => r.getD ic.1 none))⟩

def cellOf (f : Frame) (row : List (Option String)) (c : String) : Option String :=
  match idxOf? c f.cols with
  | some i => row.getD i none
  | none => none

def updateCol (f : Frame) (c : String) (g : Option String → Option String) : Frame :=
  match idxOf? c f.cols with
  | none => f
  | some i => ⟨f.cols, f.rows.map (fun r => r.set i (g (r.getD i none)))⟩

def filterRows (f : Frame) (p : List (Option String) → Bool) : Frame :=
  ⟨f.cols, f.rows.filter p⟩

def addCol (f : Frame) (c : String) (vals : List (Option String)) : Frame :=
  ⟨f.cols ++ [c], List.zipWith (fun r v => r ++ [v]) f.rows vals⟩

/-- The strict check of read_gr_csv's first attempt: County_Name and a date
column must be present after normalization. -/
def strictHeaderOk (f : Frame) : Bool :=
  f.cols.contains ("County_Name") &&
    (f.cols.contains ("Date_Code") || f.cols.contains ("Report_Month"))

/-- The loose check of read_gr_csv's fallback scan: the space-joined lowered
labels must contain a region token and a date token. -/
def looseHeaderOk (f : Frame) : Bool :=
  let cols := String.intercalate (" ") (f.cols.map (fun c => lowerStr (normCol c)))
  containsStr cols ("county") &&
    (containsStr cols ("date") || containsStr cols ("report month") || containsStr cols ("report_month"))

/-- The fallback scan of read_gr_csv: try header indices in order, return the
first whose normalized frame passes the loose check. -/
def findHeader (g : Grid) : List Nat → Option (Nat × Frame)
  | [] => none
  | h :: rest =>
    match readCsv g h with
    | none => findHeader g rest
    | some f0 =>
      let f := normalize_columns f0
      if looseHeaderOk f then some (h, f) else findHeader g rest

/-- Whether read_gr_csv's first attempt (fixed header row 4, strict check)
succeeds on this grid. -/
def strictAt4 (g : Grid) : Bool :=
  match readCsv g 4 with
  | some f0 => strictHeaderOk (normalize_columns f0)
  | none => false

/-- Models read_gr_csv: first try header=4 with the strict column check
(a read failure is logged and falls through; a failed check falls through
silently), then scan header indices 0..50 returning the first row passing
the loose check, else log failure. Returns the frame and the new log lines. -/
def read_gr_csv (g : Grid) (name : String) : Option Frame × List String :=
  match readCsv g 4 with
  | some f0 =>
    let f := normalize_columns f0
    if strictHeaderOk f then (some f, [name ++ (": read with header=4")])
    else
      match findHeader g (List.range 51) with
      | some hf => (some hf.2, [name ++ ((": read with header=") ++ toString hf.1 ++ (" (fallback)"))])
      | none => (none, [name ++ (": could not find usable header row")])
  | none =>
    -- the header=4 read raised: log it (exception text elided), then scan
    match findHeader g (List.range 51) with
    | some hf =>
      (some hf.2,
       [name ++ (": header=4 failed")] ++
         [name ++ ((": read with header=") ++ toString hf.1 ++ (" (fallback)"))])
    | none =>
      (none,
       [name ++ (": header=4 failed")] ++ [name ++ (": could not find usable header row")])

/-- The label map of map_metric_columns: a bare integer label (optionally
prefixed "Cell", case-insensitive) with 1 <= n <= 29 becomes the n-th
canonical metric; every other label is kept. -/
def parseCellNumber (s : String) : Option Nat :=
  let cs := s.toList
  let core :=
    if (cs.take 4).map lowerChar == ['c', 'e', 'l', 'l'] then
      (cs.drop 4).dropWhile isSpaceChar
    else cs
  if core ≠ [] ∧ core.all Char.isDigit then some (natOfDigits core) else none

def mapMetricLabel (c : String) : String :=
  match parseCellNumber (normCol c) with
  | some n =>
    if 1 ≤ n ∧ n ≤ METRICS_IN_ORDER.length then METRICS_IN_ORDER.getD (n - 1) c else c
  | none => c

/-- Models map_metric_columns: rename integer-labeled columns into the
canonical vocabulary (fixed 1-based position, no data inspection). -/
def map_metric_columns (f : Frame) : Frame :=
  ⟨f.cols.map mapMetricLabel, f.rows⟩

/-- Models pd.to_numeric(errors="coerce") on a cell (NaN stays NaN). -/
def numCell (c : Option String) : Option Rat := c.bind parseNumeric

/-- Modelled from the spec: under candidate offset o, canonical metric index i
is read from the column labeled with the integer i + 1 - o. The source has no
counterpart; this definition exists to state the constraint-scoring behaviour
the spec describes for the Metric Column Mapper. -/
def specMetricVal (f : Frame) (o : Nat) (i : Nat) (row : List (Option String)) : Option Rat :=
  if i < o then none
  else numCell (cellOf f row (toString (i - o + 1)))

/- Rational helpers for the spec model, written over num/den with mkRat so
that they evaluate inside the kernel (the library's Rat.add and Rat.sub are
irreducible there); mkRat normalizes, so these agree with ordinary rational
arithmetic. -/

def ratPlus (a b : Rat) : Rat := mkRat (a.num * b.den + b.num * a.den) (a.den * b.den)

def ratMinus (a b : Rat) : Rat := mkRat (a.num * b.den - b.num * a.den) (a.den * b.den)

def ratAbs (q : Rat) : Rat := if q < 0 then mkRat (-q.num) q.den else q

def ratLeBool (a b : Rat) : Bool := decide (a.num * (b.den : Int) ≤ b.num * (a.den : Int))

/-- Modelled from the spec: the identity A3 = A1 + A2 (+ Adjustment) holds on
a row, within the count tolerance of 2, under candidate offset o. -/
def specIdentityHolds (f : Frame) (o : Nat) (row : List (Option String)) : Bool :=
  match specMetricVal f o 1 row, specMetricVal f o 2 row, specMetricVal f o 3 row with
  | some a1, some a2, some a3 =>
    ratLeBool (ratAbs (ratMinus a3 (ratPlus (ratPlus a1 a2)
      ((specMetricVal f o 0 row).getD 0)))) 2
  | _, _, _ => false

/-- Modelled from the spec: constraint score of a candidate offset = number of
data rows on which the cross-metric identity balances within tolerance. -/
def specConstraintScore (f : Frame) (o : Nat) : Nat :=
  f.rows.countP (specIdentityHolds f o)

/-- Modelled from the spec: select the candidate offset (0 or 1) with the
highest constraint score, lowest offset on ties. -/
def specSelectOffset (f : Frame) : Nat :=
  if specConstraintScore f 0 < specConstraintScore f 1 then 1 else 0

/-- The column-to-metric assignment an integer offset o induces on numbered
columns: column "n" maps to canonical metric index n - 1 + o. -/
def applyOffset (f : Frame) (o : Nat) : Frame :=
  ⟨f.cols.map (fun c =>
    match parseCellNumber (normCol c) with
    | some n =>
      if 1 ≤ n ∧ n - 1 + o < METRICS_IN_ORDER.length then METRICS_IN_ORDER.getD (n - 1 + o) c else c
    | none => c), f.rows⟩

def colCells (f : Frame) (c : String) : List (Option String) :=
  match idxOf? c f.cols with
  | some i => f.rows.map (fun r => r.getD i none)
  | none => f.rows.map (fun _ => none)

/-- parse_date_series applied to a named column. -/
def parsedCol (f : Frame) (c : String) : List (Option HDate) :=
  (colCells f c).map parseDateCell

/-- The Month + Year branch of build_date: both columns numeric per row,
combined as to_datetime(year-month-01); an invalid month coerces to NaT. -/
def buildDateMY (f : Frame) : List (Option HDate) :=
  if f.cols.contains ("Month") && f.cols.contains ("Year") then
    ((colCells f ("Month")).zip (colCells f ("Year"))).map (fun mc =>
      match numCell mc.1, numCell mc.2 with
      | some mq, some yq =>
        let mi := truncInt mq
        let yi := truncInt yq
        if 1 ≤ mi ∧ mi ≤ 12 ∧ 0 ≤ yi then some ⟨yi.toNat, mi.toNat, 1⟩ else none
      | _, _ => none)
  else f.rows.map (fun _ => none)

/-- Models build_date: Date_Code first, then Report_Month, then Month + Year;
the first source column with ANY parsed value supplies the whole series. -/
def build_date (f : Frame) : List (Option HDate) :=
  if f.cols.contains ("Date_Code") && (parsedCol f ("Date_Code")).any Option.isSome then
    parsedCol f ("Date_Code")
  else if f.cols.contains ("Report_Month") && (parsedCol f ("Report_Month")).any Option.isSome then
    parsedCol f ("Report_Month")
  else buildDateMY f

/-- One row of the final long-format table. -/
structure LongRecord where
  date : HDate
  report_month : Option String
  county_name : Option String
  county_code : Option String
  metric : String
  value : Option Rat
deriving DecidableEq, Repr

/-- The de-duplication key (Date, County_Name, Metric). -/
def keyOf (r : LongRecord) : HDate × Option String × String :=
  (r.date, r.county_name, r.metric)

/-- Date comparison used for the chronological sort. -/
def dateLe (a b : HDate) : Bool :=
  decide (a.year < b.year) ||
    (decide (a.year = b.year) &&
      (decide (a.month < b.month) ||
        (decide (a.month = b.month) && decide (a.day ≤ b.day))))

def recLE (a b : LongRecord) : Prop := dateLe a.date b.date = true

instance : DecidableRel recLE :=
  fun a b => inferInstanceAs (Decidable (dateLe a.date b.date = true))

/-- Models the county-cleaning block of load_all: astype(str).str.strip()
(a missing cell becomes the string "nan"), drop the "Statewide" aggregate,
dropna on County_Name, keep only names containing a letter. -/
def cleanCounty (f : Frame) : Frame :=
  let f1 := updateCol f ("County_Name") (fun c => some (trimStr (pyStr c)))
  let f2 := filterRows f1 (fun row => !(cellOf f1 row ("County_Name") == some ("Statewide")))
  let f3 := filterRows f2 (fun row => (cellOf f2 row ("County_Name")).isSome)
  filterRows f3 (fun row =>
    match cellOf f3 row ("County_Name") with
    | some s => hasLetterStr s
    | none => false)

def monthAbbrTitle : List String :=
  ["Jan", "Feb", "Mar", "Apr", "May", "Jun", "Jul", "Aug", "Sep", "Oct", "Nov", "Dec"]

/-- Models Date.dt.strftime("%b %Y"). -/
def fmtMonYear (d : HDate) : String :=
  monthAbbrTitle.getD (d.month - 1) ("") ++ (" ") ++ toString d.year

/-- Models the Report_Month synthesis: only when the column is absent, add it
as the %b %Y rendering of each row's resolved date. -/
def addReportMonth (f : Frame) (dates : List HDate) : Frame :=
  if f.cols.contains ("Report_Month") then f
  else addCol f ("Report_Month") (dates.map (fun d => some (fmtMonYear d)))

/-- A row is dropped by dropna(how="all") iff every mapped metric coerces to NaN. -/
def rowAllAbsent (f : Frame) (mcols : List String) (row : List (Option String)) : Bool :=
  mcols.all (fun m => (numCell (cellOf f row m)).isNone)

def dropAllAbsent (f : Frame) (mcols : List String)
    (rds : List (List (Option String) × HDate)) : List (List (Option String) × HDate) :=
  rds.filter (fun rd => !rowAllAbsent f mcols rd.1)

/-- One melted record: identifier cells carried over, the metric cell coerced. -/
def mkMeltRec (f : Frame) (m : String) (rd : List (Option String) × HDate) : LongRecord :=
  ⟨rd.2,
   cellOf f rd.1 ("Report_Month"),
   cellOf f rd.1 ("County_Name"),
   if f.cols.contains ("County_Code") then cellOf f rd.1 ("County_Code") else none,
   m,
   numCell (cellOf f rd.1 m)⟩

/-- Models pd.melt over value_vars = mcols: one block of records per metric
column, rows in order within each block. -/
def meltRecords (f : Frame) (mcols : List String)
    (rds : List (List (Option String) × HDate)) : List LongRecord :=
  (mcols.map (fun m => rds.map (fun rd => mkMeltRec f m rd))).flatten

/-- Models .dropna(subset=["Value"]): null-valued melt rows are not stored. -/
def dropNullValue (recs : List LongRecord) : List LongRecord :=
  recs.filter (fun r => r.value.isSome)

def pad2 (n : Nat) : String := if n < 10 then ("0") ++ toString n else toString n

def isoOfDate (d : HDate) : String :=
  toString d.year ++ ("-") ++ pad2 d.month ++ ("-") ++ pad2 d.day

def dateSpanStr (dates : List HDate) : String :=
  match dates with
  | [] => ("")
  | d :: rest =>
    let lo := rest.foldl (fun a b => if dateLe a b then a else b) d
    let hi := rest.foldl (fun a b => if dateLe a b then b else a) d
    isoOfDate lo ++ (" -> ") ++ isoOfDate hi

/-- Models one iteration of the load_all loop on one file identifier: the file
locator is the function fs (resolve_path plus CSV parsing treated as one
primitive). Returns the melted records when the file survives every stage
(none when it is excluded) together with the log lines it contributed. -/
def processFile (fs : String → Option Grid) (fname : String) :
    Option (List LongRecord) × List String :=
  match fs fname with
  | none => (none, [fname ++ (": missing (put next to app.py or in ./data/)")])
  | some g =>
    match read_gr_csv g fname with
    | (none, ls) => (none, ls)
    | (some df, ls) =>
      if df.rows.isEmpty || df.cols.isEmpty then (none, ls)
      else if !(df.cols.contains ("County_Name")) then
        (none, ls ++ [fname ++ (": missing County_Name after read")])
      else
        let df1 := cleanCounty df
        if df1.rows.isEmpty then
          (none, ls ++ [fname ++ (": empty after county filtering")])
        else
          let paired := (df1.rows.zip (build_date df1)).filterMap (fun rd =>
            match rd.2 with
            | some d => some (rd.1, d)
            | none => none)
          if paired.isEmpty then
            (none, ls ++ [fname ++ (": no parsable dates")])
          else
            let df2 : Frame := ⟨df1.cols, paired.map (fun rd => rd.1)⟩
            let dates2 := paired.map (fun rd => rd.2)
            let df3 := addReportMonth df2 dates2
            let ls2 := ls ++ [fname ++ ((": Columns before mapping: [") ++
              String.intercalate (", ") df3.cols ++ ("]"))]
            let df4 := map_metric_columns df3
            let mcols := METRICS_IN_ORDER.filter (fun m => df4.cols.contains m)
            if mcols.isEmpty then
              (none, ls2 ++ [fname ++ (": no metric columns recognized (expected 1..29 or Cell 1..29)")])
            else
              let rds := dropAllAbsent df4 mcols (df4.rows.zip dates2)
              if rds.isEmpty then
                (none, ls2 ++ [fname ++ (": all metric values empty after numeric coercion")])
              else
                let recs := dropNullValue (meltRecords df4 mcols rds)
                (some recs,
                 ls2 ++ [fname ++ ((": long_rows=") ++ toString recs.length ++ (" | ") ++
                   dateSpanStr (rds.map (fun rd => rd.2)))])

/-- The load_all loop over the file list: collected per-file frames and logs. -/
def loadLoop (fs : String → Option Grid) : List String → List (List LongRecord) × List String
  | [] => ([], [])
  | fname :: rest =>
    let pr := processFile fs fname
    let tail := loadLoop fs rest
    ((match pr.1 with
      | some recs => recs :: tail.1
      | none => tail.1), pr.2 ++ tail.2)

/-- Models drop_duplicates(subset=key, keep="first") via a seen-key set. -/
def dropDupsAux : List LongRecord → List (HDate × Option String × String) → List LongRecord
  | [], _ => []
  | x :: xs, seen =>
    if keyOf x ∈ seen then dropDupsAux xs seen
    else x :: dropDupsAux xs (keyOf x :: seen)

def dropDups (l : List LongRecord) : List LongRecord := dropDupsAux l []

/-- The contract pandas documents for sort_values("Date") with the default
kind="quicksort": the output is a permutation of the input that is
non-decreasing on the Date key; the permutation applied to equal-date rows is
unspecified (only mergesort/stable are documented stable). Claims that depend
on the tie order are stated over every function satisfying this contract. -/
def SortsByDate (sortFn : List LongRecord → List LongRecord) : Prop :=
  ∀ l : List LongRecord, (sortFn l).Perm l ∧ List.Sorted recLE (sortFn l)

/-- The concatenated frames after the library sort, for a given sort
function. -/
def sortedAllWith (sortFn : List LongRecord → List LongRecord)
    (fs : String → Option Grid) (files : List String) : List LongRecord :=
  sortFn ((loadLoop fs files).1.flatten)

/-- Models load_all with the library sort left as a parameter: per-file
pipeline, then concat, the chronological sort, keep-first de-duplication;
an empty frame and the logs when nothing loaded. -/
def load_allWith (sortFn : List LongRecord → List LongRecord)
    (fs : String → Option Grid) (files : List String) :
    List LongRecord × List String :=
  let fl := loadLoop fs files
  if fl.1.isEmpty then ([], fl.2)
  else (dropDups (sortFn fl.1.flatten), fl.2)

/-- One sort permitted by the SortsByDate contract (a sort that is stable on
the reversed input): equal-date records come out in reverse concatenation
order. It witnesses that the contract does not fix the tie order. -/
def revSort (l : List LongRecord) : List LongRecord :=
  List.insertionSort recLE l.reverse

/-- The sort used for concrete evaluation: a stable sorted permutation.
pandas guarantees only the SortsByDate contract for its default sort, so no
theorem below relies on this instantiation's tie order other than through a
SortsByDate hypothesis that it discharges. -/
def sortedAll (fs : String → Option Grid) (files : List String) : List LongRecord :=
  sortedAllWith (List.insertionSort recLE) fs files

/-- Models load_all, instantiating the library sort with a stable sorted
permutation for concrete evaluation. -/
def load_all (fs : String → Option Grid) (files : List String) :
    List LongRecord × List String :=
  load_allWith (List.insertionSort recLE) fs files

/- Concrete inputs used to exercise the pipeline in the theorems below. -/

/-- A minimal well-formed file: fallback header at row 0, numbered metric
columns, one data row (the spec's end-to-end file A). -/
def gA : Grid :=
  [[some ("Date"), some ("County"), some ("1"), some ("2")],
   [some ("Jul15"), some ("Alameda"), some ("10"), some ("20")]]

def fsA : String → Option Grid := fun n => if n == ("a.csv") then some gA else none

/-- A second file overlapping gA on the key (2015-07-01, Alameda, metric 1)
with a different value, to exercise first-seen de-duplication. -/
def gB : Grid :=
  [[some ("Date"), some ("County"), some ("1")],
   [some ("Jul15"), some ("Alameda"), some ("99")]]

def fsAB : String → Option Grid := fun n =>
  if n == ("a.csv") then some gA else if n == ("b.csv") then some gB else none

/-- A grid whose row 0 and row 4 are both plausible header rows. -/
def gC3 : Grid :=
  [[some ("Date"), some ("County Name"), some ("1")],
   [some ("x"), some ("y"), some ("z")],
   [some ("x"), some ("y"), some ("z")],
   [some ("x"), some ("y"), some ("z")],
   [some ("Date"), some ("County Name"), some ("1")],
   [some ("Jul15"), some ("A"), some ("3")]]

/-- A file with a data row whose County_Name cell is missing. -/
def gC4 : Grid :=
  [[some ("Date"), some ("County"), some ("1")],
   [some ("Jul15"), none, some ("7")]]

def fsC4 : String → Option Grid := fun n => if n == ("a.csv") then some gC4 else none

/-- Numbered columns on which the spec's cross-metric identity balances only
under offset 1 (columns shifted by one against the canonical numbering). -/
def fC1 : Frame :=
  ⟨[("1"), ("2"), ("3")],
   [[some ("5"), some ("10"), some ("15")],
    [some ("2"), some ("3"), some ("5")],
    [some ("1"), some ("1"), some ("2")]]⟩

/-- The spec's offset-resolution scenario: columns "1".."29", and a data row
on which A3 = A1 + A2 + Adjustment balances under offset 0 but not offset 1. -/
def f29 : Frame :=
  ⟨(List.range 29).map (fun i => toString (i + 1)),
   [[some ("10"), some ("200"), some ("300"), some ("510")] ++ List.replicate 25 none]⟩

/-- A frame with a Date_Code cell "Jul15" and a conflicting, parseable
Report_Month cell. -/
def fW2 : Frame :=
  ⟨[("Date_Code"), ("Report_Month")], [[some ("Jul15"), some ("2015-08")]]⟩

/-- Reshaping-stage inputs for the partial-row scenario: cases-brought-forward
redacted ("*"), total-expenditure present. -/
def fW7 : Frame :=
  ⟨[("Report_Month"), ("County_Name"), ("A. 1. Cases brought forward"),
    ("B. 6. Total GR Expenditure (Dollars)")],
   [[some ("Jul 2015"), some ("Alameda"), some ("*"), some ("100")]]⟩

def mcolsW7 : List String :=
  [("A. 1. Cases brought forward"), ("B. 6. Total GR Expenditure (Dollars)")]

def rdW7 : List (Option String) × HDate :=
  ([some ("Jul 2015"), some ("Alameda"), some ("*"), some ("100")], ⟨2015, 7, 1⟩)

/-- A frame reaching the reshaping stage with no Report_Month column. -/
def fW10 : Frame := ⟨[("County_Name"), ("13")], [[some ("Alameda"), some ("5")]]⟩

def datesW10 : List HDate := [⟨2015, 7, 1⟩]

def rdW10 : List (Option String) × HDate :=
  ([some ("Alameda"), some ("5"), some ("Jul 2015")], ⟨2015, 7, 1⟩)

/-- A file locator that only resolves "b.csv": "a.csv" is a missing file. -/
def fsW9 : String → Option Grid := fun n => if n == ("b.csv") then some gA else none

/-- The first LongRecord produced from gA. -/
def recA1 : LongRecord :=
  ⟨⟨2015, 7, 1⟩, some ("Jul 2015"), some ("Alameda"), none, ("A. Adjustment"), some 10⟩

/-- The second LongRecord produced from gA. -/
def recA2 : LongRecord :=
  ⟨⟨2015, 7, 1⟩, some ("Jul 2015"), some ("Alameda"), none,
   ("A. 1. Cases brought forward"), some 20⟩

/-- The gB record carrying the same key as recA1 but value 99. -/
def recB1 : LongRecord :=
  ⟨⟨2015, 7, 1⟩, some ("Jul 2015"), some ("Alameda"), none, ("A. Adjustment"), some 99⟩

/- Structural lemmas about the sort and de-duplication stages. -/

lemma dateLe_refl (a : HDate) : dateLe a a = true := by
  simp [dateLe]

lemma dateLe_total (a b : HDate) : dateLe a b = true ∨ dateLe b a = true := by
  simp only [dateLe, Bool.or_eq_true, Bool.and_eq_true, decide_eq_true_eq]
  omega

lemma dateLe_trans {a b c : HDate} (h1 : dateLe a b = true) (h2 : dateLe b c = true) :
    dateLe a c = true := by
  simp only [dateLe, Bool.or_eq_true, Bool.and_eq_true, decide_eq_true_eq] at h1 h2 ⊢
  omega

instance : IsTotal LongRecord recLE := ⟨fun a b => dateLe_total a.date b.date⟩

instance : IsTrans LongRecord recLE := ⟨fun _ _ _ h1 h2 => dateLe_trans h1 h2⟩

lemma dropDupsAux_sublist (l : List LongRecord) (seen : List (HDate × Option String × String)) :
    (dropDupsAux l seen).Sublist l := by
  induction l generalizing seen with
  | nil => simp [dropDupsAux]
  | cons x xs ih =>
    rw [dropDupsAux]
    by_cases h : keyOf x ∈ seen
    · rw [if_pos h]
      exact (ih seen).trans (List.sublist_cons_self x xs)
    · rw [if_neg h]
      exact (ih (keyOf x :: seen)).cons₂ x

lemma mem_of_mem_dropDupsAux {r : LongRecord} {l : List LongRecord}
    {seen : List (HDate × Option String × String)} (h : r ∈ dropDupsAux l seen) : r ∈ l :=
  (dropDupsAux_sublist l seen).subset h

lemma keyOf_not_seen {r : LongRecord} :
    ∀ {l : List LongRecord} {seen : List (HDate × Option String × String)},
      r ∈ dropDupsAux l seen → keyOf r ∉ seen := by
  intro l
  induction l with
  | nil => intro seen h; simp [dropDupsAux] at h
  | cons x xs ih =>
    intro seen h
    rw [dropDupsAux] at h
    by_cases hx : keyOf x ∈ seen
    · rw [if_pos hx] at h
      exact ih h
    · rw [if_neg hx] at h
      rcases List.mem_cons.mp h with h1 | h2
      · subst h1; exact hx
      · intro hc
        exact (ih h2) (List.mem_cons_of_mem _ hc)

lemma dropDupsAux_pairwise (l : List LongRecord) (seen : List (HDate × Option String × String)) :
    (dropDupsAux l seen).Pairwise (fun a b => keyOf a ≠ keyOf b) := by
  induction l generalizing seen with
  | nil => simp [dropDupsAux]
  | cons x xs ih =>
    rw [dropDupsAux]
    by_cases h : keyOf x ∈ seen
    · rw [if_pos h]; exact ih seen
    · rw [if_neg h]
      refine List.Pairwise.cons ?_ (ih (keyOf x :: seen))
      intro b hb hk
      exact (keyOf_not_seen hb) (hk ▸ List.mem_cons_self (keyOf x) seen)

lemma find?_dropDupsAux (l : List LongRecord) (seen : List (HDate × Option String × String))
    (k : HDate × Option String × String) (hk : k ∉ seen) :
    (dropDupsAux l seen).find? (fun y => decide (keyOf y = k)) =
      l.find? (fun y => decide (keyOf y = k)) := by
  induction l generalizing seen with
  | nil => simp [dropDupsAux]
  | cons x xs ih =>
    rw [dropDupsAux]
    by_cases hx : keyOf x ∈ seen
    · rw [if_pos hx]
      have hne : keyOf x ≠ k := fun he => hk (he ▸ hx)
      rw [List.find?_cons_of_neg _ (by simp [hne]), ih seen hk]
    · rw [if_neg hx]
      by_cases he : keyOf x = k
      · rw [List.find?_cons_of_pos _ (by simp [he]), List.find?_cons_of_pos _ (by simp [he])]
      · rw [List.find?_cons_of_neg _ (by simp [he]), List.find?_cons_of_neg _ (by simp [he])]
        refine ih (keyOf x :: seen) ?_
        intro hc
        rcases List.mem_cons.mp hc with h1 | h1
        · exact he h1.symm
        · exact hk h1

lemma find?_of_pairwise {l : List LongRecord} {r : LongRecord}
    (hp : l.Pairwise (fun a b => keyOf a ≠ keyOf b)) (hr : r ∈ l) :
    l.find? (fun y => decide (keyOf y = keyOf r)) = some r := by
  induction l with
  | nil => simp at hr
  | cons x xs ih =>
    rcases List.mem_cons.mp hr with h1 | h2
    · subst h1
      rw [List.find?_cons_of_pos _ (by simp)]
    · have hx : keyOf x ≠ keyOf r := (List.pairwise_cons.mp hp).1 r h2
      rw [List.find?_cons_of_neg _ (by simp [hx])]
      exact ih (List.pairwise_cons.mp hp).2 h2

lemma key_cover {l : List LongRecord} {k : HDate × Option String × String} :
    ∀ (seen : List (HDate × Option String × String)), (∃ r ∈ l, keyOf r = k) →
      k ∈ seen ∨ ∃ q ∈ dropDupsAux l seen, keyOf q = k := by
  induction l with
  | nil =>
    intro seen h
    rcases h with ⟨r, hr, _⟩
    simp at hr
  | cons x xs ih =>
    intro seen h
    rcases h with ⟨r, hr, hkr⟩
    by_cases hseen : keyOf x ∈ seen
    · rw [dropDupsAux, if_pos hseen]
      rcases List.mem_cons.mp hr with h1 | h2
      · subst h1; exact Or.inl (hkr ▸ hseen)
      · exact ih seen ⟨r, h2, hkr⟩
    · rw [dropDupsAux, if_neg hseen]
      by_cases hxk : keyOf x = k
      · exact Or.inr ⟨x, List.mem_cons_self _ _, hxk⟩
      · rcases List.mem_cons.mp hr with h1 | h2
        · exact absurd (h1 ▸ hkr) hxk
        · rcases ih (keyOf x :: seen) ⟨r, h2, hkr⟩ with hin | ⟨q, hq, hqk⟩
          · rcases List.mem_cons.mp hin with h3 | h3
            · exact absurd h3.symm hxk
            · exact Or.inl h3
          · exact Or.inr ⟨q, List.mem_cons_of_mem _ hq, hqk⟩

lemma insertionSort_sorts : SortsByDate (List.insertionSort recLE) :=
  fun l => ⟨List.perm_insertionSort recLE l, List.sorted_insertionSort recLE l⟩

lemma revSort_sorts : SortsByDate revSort :=
  fun l =>
    ⟨(List.perm_insertionSort recLE l.reverse).trans (List.reverse_perm l),
     List.sorted_insertionSort recLE l.reverse⟩

lemma load_allWith_fst (sortFn : List LongRecord → List LongRecord)
    (hsort : SortsByDate sortFn) (fs : String → Option Grid) (files : List String) :
    (load_allWith sortFn fs files).1 = dropDups (sortedAllWith sortFn fs files) := by
  unfold load_allWith sortedAllWith
  by_cases h : (loadLoop fs files).1.isEmpty
  · have he : (loadLoop fs files).1 = [] := List.isEmpty_iff.mp h
    have hnil : sortFn (loadLoop fs files).1.flatten = [] := by
      rw [he]
      exact ((hsort []).1).eq_nil
    simp [h, hnil, dropDups, dropDupsAux]
  · simp [h, dropDups]

lemma load_all_fst (fs : String → Option Grid) (files : List String) :
    (load_all fs files).1 = dropDups (sortedAll fs files) := by
  unfold load_all sortedAll
  exact load_allWith_fst (List.insertionSort recLE) insertionSort_sorts fs files

lemma load_all_snd (fs : String → Option Grid) (files : List String) :
    (load_all fs files).2 = (loadLoop fs files).2 := by
  unfold load_all load_allWith
  by_cases h : (loadLoop fs files).1.isEmpty <;> simp [h]

/- Structural lemmas about the per-file loop. -/

lemma loadLoop_frames_src (fs : String → Option Grid) :
    ∀ (files : List String) (L : List LongRecord),
      L ∈ (loadLoop fs files).1 → ∃ f, (processFile fs f).1 = some L := by
  intro files
  induction files with
  | nil => intro L h; simp [loadLoop] at h
  | cons fname rest ih =>
    intro L h
    simp only [loadLoop] at h
    cases hp : (processFile fs fname).1 with
    | some recs =>
      simp only [hp] at h
      rcases List.mem_cons.mp h with h1 | h2
      · exact ⟨fname, by rw [hp, h1]⟩
      · exact ih L h2
    | none =>
      simp only [hp] at h
      exact ih L h

lemma loadLoop_frames_mem (fs : String → Option Grid) :
    ∀ (files : List String) (fname : String) (recs : List LongRecord),
      fname ∈ files → (processFile fs fname).1 = some recs →
        recs ∈ (loadLoop fs files).1 := by
  intro files
  induction files with
  | nil => intro fname recs h _; simp at h
  | cons f0 rest ih =>
    intro fname recs hmem hp
    simp only [loadLoop]
    rcases List.mem_cons.mp hmem with h1 | h2
    · subst h1
      simp only [hp]
      exact List.mem_cons_self _ _
    · cases hp0 : (processFile fs f0).1 with
      | some r0 =>
        simp only [hp0]
        exact List.mem_cons_of_mem _ (ih fname recs h2 hp)
      | none =>
        simp only [hp0]
        exact ih fname recs h2 hp

lemma loadLoop_logs_mem (fs : String → Option Grid) :
    ∀ (files : List String) (fname : String) (l : String),
      fname ∈ files → l ∈ (processFile fs fname).2 → l ∈ (loadLoop fs files).2 := by
  intro files
  induction files with
  | nil => intro fname l h _; simp at h
  | cons f0 rest ih =>
    intro fname l hmem hl
    simp only [loadLoop]
    rcases List.mem_cons.mp hmem with h1 | h2
    · subst h1
      exact List.mem_append_left _ hl
    · exact List.mem_append_right _ (ih fname l h2 hl)

lemma processFile_value {fs : String → Option Grid} {fname : String} {recs : List LongRecord}
    (h : (processFile fs fname).1 = some recs) : ∀ r ∈ recs, r.value.isSome = true := by
  intro r hr
  simp only [processFile] at h
  repeat' split at h
  all_goals (try (exact Option.noConfusion h))
  all_goals
    (rw [← Option.some.inj h] at hr
     exact (List.mem_filter.mp hr).2)

lemma read_gr_csv_log (g : Grid) (name : String) :
    ∃ l ∈ (read_gr_csv g name).2, ∃ rest, l = name ++ rest := by
  simp only [read_gr_csv]
  split
  · split
    · exact ⟨name ++ (": read with header=4"), by simp, _, rfl⟩
    · split
      next hf heq =>
        exact ⟨name ++ ((": read with header=") ++ toString hf.1 ++ (" (fallback)")), by simp, _, rfl⟩
      next heq =>
        exact ⟨name ++ (": could not find usable header row"), by simp, _, rfl⟩
  · split
    · exact ⟨name ++ (": header=4 failed"), by simp, _, rfl⟩
    · exact ⟨name ++ (": header=4 failed"), by simp, _, rfl⟩

lemma processFile_log (fs : String → Option Grid) (fname : String) :
    ∃ l ∈ (processFile fs fname).2, ∃ rest, l = fname ++ rest := by
  simp only [processFile]
  split
  next heq =>
    exact ⟨fname ++ (": missing (put next to app.py or in ./data/)"), by simp, _, rfl⟩
  next g heq =>
    split
    next ls heq2 =>
      rcases read_gr_csv_log g fname with ⟨l, hl, rest, hr⟩
      rw [heq2] at hl
      exact ⟨l, hl, rest, hr⟩
    next df ls heq2 =>
      rcases read_gr_csv_log g fname with ⟨l, hl, rest, hr⟩
      rw [heq2] at hl
      have hl2 : l ∈ ls := hl
      repeat' split
      all_goals
        first
        | exact ⟨l, hl2, rest, hr⟩
        | exact ⟨l, List.mem_append_left _ hl2, rest, hr⟩
        | exact ⟨l, List.mem_append_left _ (List.mem_append_left _ hl2), rest, hr⟩

/- Lemmas about coercion and reshaping. -/

lemma isNone_eq_false_of_isSome {o : Option Rat} (h : o.isSome = true) : o.isNone = false := by
  cases o <;> simp_all

lemma rowAllAbsent_false {f : Frame} {mcols : List String} {row : List (Option String)}
    {m : String} (hm : m ∈ mcols) (hsome : (numCell (cellOf f row m)).isSome = true) :
    rowAllAbsent f mcols row = false := by
  unfold rowAllAbsent
  rw [List.all_eq_false]
  exact ⟨m, hm, by rw [isNone_eq_false_of_isSome hsome]; simp⟩

lemma exists_some_of_rowAllAbsent_false {f : Frame} {mcols : List String}
    {row : List (Option String)} (h : rowAllAbsent f mcols row = false) :
    ∃ m ∈ mcols, (numCell (cellOf f row m)).isSome = true := by
  unfold rowAllAbsent at h
  rw [List.all_eq_false] at h
  rcases h with ⟨m, hm, hx⟩
  refine ⟨m, hm, ?_⟩
  cases hopt : numCell (cellOf f row m) with
  | none => exact absurd (by rw [hopt]; rfl) hx
  | some v => rfl

/- Lemmas about the synthesized Report_Month column. -/

lemma getD_mem_or_default {α : Type} (l : List α) (i : Nat) (d : α) :
    l.getD i d ∈ l ∨ l.getD i d = d := by
  induction l generalizing i with
  | nil => right; cases i <;> rfl
  | cons x xs ih =>
    cases i with
    | zero => left; simp
    | succ j =>
      rcases ih j with h | h
      · left
        rw [List.getD_cons_succ]
        exact List.mem_cons_of_mem _ h
      · right
        rw [List.getD_cons_succ]
        exact h

lemma metrics_ne_rm : ∀ m ∈ METRICS_IN_ORDER, m ≠ ("Report_Month") := by decide

lemma mapMetricLabel_ne_rm (c : String) (hc : c ≠ ("Report_Month")) :
    mapMetricLabel c ≠ ("Report_Month") := by
  unfold mapMetricLabel
  split
  next n hp =>
    split
    next hb =>
      rcases getD_mem_or_default METRICS_IN_ORDER (n - 1) c with h | h
      · exact metrics_ne_rm _ h
      · rw [h]; exact hc
    next hb => exact hc
  next hp => exact hc

lemma idxOf?_append_self (l : List String) (c : String)
    (h : ∀ x ∈ l, (x == c) = false) : idxOf? c (l ++ [c]) = some l.length := by
  induction l with
  | nil => simp [idxOf?]
  | cons x xs ih =>
    rw [List.cons_append, idxOf?, h x (List.mem_cons_self _ _)]
    simp only [Bool.false_eq_true, if_false]
    rw [ih (fun y hy => h y (List.mem_cons_of_mem _ hy))]
    simp

lemma getD_append_len (r : List (Option String)) (v : Option String) :
    (r ++ [v]).getD r.length none = v := by
  induction r with
  | nil => rfl
  | cons x xs ih =>
    rw [List.cons_append, List.length_cons, List.getD_cons_succ]
    exact ih

lemma zipRM (n : Nat) :
    ∀ (rows : List (List (Option String))) (dates : List HDate),
      (∀ row ∈ rows, row.length = n) →
      ∀ rd ∈ (List.zipWith (fun r v => r ++ [v]) rows
          (dates.map (fun d => some (fmtMonYear d)))).zip dates,
        rd.1.getD n none = some (fmtMonYear rd.2) := by
  intro rows
  induction rows with
  | nil => intro dates _ rd hrd; simp at hrd
  | cons r rs ih =>
    intro dates hlen rd hrd
    cases dates with
    | nil => simp at hrd
    | cons d ds =>
      simp only [List.map_cons, List.zipWith_cons_cons, List.zip_cons_cons] at hrd
      rcases List.mem_cons.mp hrd with h1 | h2
      · subst h1
        have hl : r.length = n := hlen r (List.mem_cons_self _ _)
        rw [← hl]
        exact getD_append_len r _
      · exact ih ds (fun row hrow => hlen row (List.mem_cons_of_mem _ hrow)) rd h2

/- The claims. -/

/-- C1 counterexample: on a numbered-column file whose cross-metric identity
balances only under offset 1, the spec's constraint scoring selects offset 1,
but map_metric_columns still produces the offset-0 assignment — the code does
not select the highest-scoring offset. -/
theorem claim1_counterexample :
    specConstraintScore fC1 0 < specConstraintScore fC1 1
    ∧ specSelectOffset fC1 = 1
    ∧ map_metric_columns fC1 ≠ applyOffset fC1 (specSelectOffset fC1)
    ∧ map_metric_columns fC1 = applyOffset fC1 0 := by
  refine ⟨by decide, by decide, by decide, by decide⟩

/-- C1 (amended): the Metric Column Mapper performs no constraint scoring; it
unconditionally renames a column labeled with bare integer n (optionally
"Cell"-prefixed), 1 ≤ n ≤ 29, to the n-th canonical metric — the fixed
offset-0 assignment, independent of the data rows, and it leaves the data
rows unchanged. -/
theorem claim1_theorem (cols : List String) (rows rows2 : List (List (Option String)))
    (c : String) (n : Nat) (hc : c ∈ cols)
    (hn : parseCellNumber (normCol c) = some n)
    (hb : 1 ≤ n ∧ n ≤ METRICS_IN_ORDER.length) :
    (map_metric_columns ⟨cols, rows⟩).cols = (map_metric_columns ⟨cols, rows2⟩).cols
    ∧ METRICS_IN_ORDER.getD (n - 1) c ∈ (map_metric_columns ⟨cols, rows⟩).cols
    ∧ (map_metric_columns ⟨cols, rows⟩).rows = rows := by
  refine ⟨rfl, ?_, rfl⟩
  have hlabel : mapMetricLabel c = METRICS_IN_ORDER.getD (n - 1) c := by
    simp only [mapMetricLabel, hn]
    rw [if_pos hb]
  rw [← hlabel]
  exact List.mem_map_of_mem mapMetricLabel hc

/-- C1 witness: in the spec's "1".."29" scenario, where the identity balances
under offset 0 and not offset 1, column "1" is mapped to the first canonical
metric (offset 0), and offset 0 is also the score-maximizing offset. -/
theorem claim1_witness :
    parseCellNumber (normCol ("1")) = some 1
    ∧ METRICS_IN_ORDER.getD 0 ("1") ∈ (map_metric_columns f29).cols
    ∧ METRICS_IN_ORDER.getD 0 ("1") = ("A. Adjustment")
    ∧ specSelectOffset f29 = 0
    ∧ specConstraintScore f29 1 < specConstraintScore f29 0 := by
  refine ⟨by decide, ?_, by decide, by decide, by decide⟩
  exact (claim1_theorem f29.cols f29.rows f29.rows ("1") 1 (by decide) (by decide)
    (by decide)).2.1

/-- C2: when a Date_Code column is present and any of its cells parses, the
whole resolved date series comes from Date_Code (report-month and month/year
sources are not consulted), and the compact date code "Jul15" parses to
July 2015. -/
theorem claim2_theorem (f : Frame)
    (h1 : f.cols.contains ("Date_Code") = true)
    (h2 : (parsedCol f ("Date_Code")).any Option.isSome = true) :
    build_date f = parsedCol f ("Date_Code")
    ∧ parseDateCell (some ("Jul15")) = some ⟨2015, 7, 1⟩ := by
  constructor
  · unfold build_date
    rw [h1, h2]
    simp
  · decide

/-- C2 witness: a row with date code "Jul15" and conflicting report month
"2015-08" (which parses to August 2015) resolves to July 2015. -/
theorem claim2_witness :
    fW2.cols.contains ("Date_Code") = true
    ∧ build_date fW2 = [some (⟨2015, 7, 1⟩ : HDate)]
    ∧ parseDateCell (some ("2015-08")) = some ⟨2015, 8, 1⟩ := by
  refine ⟨by decide, ?_, by decide⟩
  rw [(claim2_theorem fW2 (by decide) (by decide)).1]
  decide

/-- C3 counterexample: a grid whose row 0 passes the plausibility check is
read with header row 4 (the fixed first attempt), not the earliest plausible
row 0; the resulting frames differ. -/
theorem claim3_counterexample :
    ((readCsv gC3 0).map (fun f => looseHeaderOk (normalize_columns f))) = some true
    ∧ (read_gr_csv gC3 ("f.csv")).2 = [("f.csv: read with header=4")]
    ∧ (read_gr_csv gC3 ("f.csv")).1 = (readCsv gC3 4).map normalize_columns
    ∧ (readCsv gC3 4).map normalize_columns ≠ (readCsv gC3 0).map normalize_columns := by
  refine ⟨by decide, by decide, by decide, by decide⟩

/-- C3 (amended): the header locator first tries the fixed row 4 and keeps it
whenever the strict check passes, even if an earlier row is plausible; only
when that attempt fails does it scan rows 0..50 in increasing order, and
within that fallback a plausible row 0 is always chosen. -/
theorem claim3_theorem (g : Grid) (name : String) :
    (strictAt4 g = true →
      (read_gr_csv g name).1 = (readCsv g 4).map normalize_columns)
    ∧ (strictAt4 g = false →
        ∀ f0, readCsv g 0 = some f0 → looseHeaderOk (normalize_columns f0) = true →
          (read_gr_csv g name).1 = some (normalize_columns f0)) := by
  constructor
  · intro h
    unfold strictAt4 at h
    cases h4 : readCsv g 4 with
    | none => rw [h4] at h; exact absurd h (by simp)
    | some f0 =>
      rw [h4] at h
      change strictHeaderOk (normalize_columns f0) = true at h
      simp only [read_gr_csv, h4]
      rw [if_pos h]
      rfl
  · intro h f0 h0 hl
    have hfind : findHeader g (List.range 51) = some (0, normalize_columns f0) := by
      rw [List.range_succ_eq_map]
      simp only [findHeader, h0, hl, if_true]
    unfold strictAt4 at h
    cases h4 : readCsv g 4 with
    | none =>
      simp only [read_gr_csv, h4, hfind]
    | some f4 =>
      rw [h4] at h
      change strictHeaderOk (normalize_columns f4) = false at h
      simp only [read_gr_csv, h4, hfind]
      rw [if_neg (show ¬(strictHeaderOk (normalize_columns f4) = true) from by simp [h])]

/-- C3 witness: on gC3 the strict header-4 attempt succeeds and the frame read
with header row 4 is returned. -/
theorem claim3_witness :
    strictAt4 gC3 = true
    ∧ (read_gr_csv gC3 ("w.csv")).1 = (readCsv gC3 4).map normalize_columns :=
  ⟨by decide, (claim3_theorem gC3 ("w.csv")).1 (by decide)⟩

/-- C4: a data row whose County_Name cell is missing is NOT dropped — astype
runs before dropna, so the missing name becomes the string "nan", survives the
letter filter, and the combined table stores a LongRecord with region name
"nan". -/
theorem claim4_theorem :
    (gC4.getD 1 []).getD 1 (some ("x")) = none
    ∧ ((load_all fsC4 [("a.csv")]).1.map (fun r => r.county_name)) = [some ("nan")] := by
  refine ⟨by decide, by decide⟩

/-- C5 counterexample: revSort satisfies the SortsByDate contract of the
default (unstable) sort_values, yet under it the duplicate key shared by
a.csv (value 10, first-encountered: recA1 heads the concatenation) and b.csv
(value 99) is resolved to the b.csv record — first-encountered-by-file-order
precedence is not guaranteed by the code. -/
theorem claim5_counterexample :
    SortsByDate revSort
    ∧ ((loadLoop fsAB [("a.csv"), ("b.csv")]).1.flatten) = [recA1, recA2, recB1]
    ∧ keyOf recB1 = keyOf recA1
    ∧ recB1 ∈ (load_allWith revSort fsAB [("a.csv"), ("b.csv")]).1
    ∧ recA1 ∉ (load_allWith revSort fsAB [("a.csv"), ("b.csv")]).1 := by
  refine ⟨revSort_sorts, ?_, ?_, ?_, ?_⟩ <;> decide

/-- C5 (amended): for every sort satisfying the library contract, all pairs
of distinct records in the combined table differ on the key
(date, region name, metric), and the record kept for a key is the first
record carrying it in the post-sort order — which, the default sort being
unstable on equal dates, need not be the first-encountered one under the
file processing order. -/
theorem claim5_theorem (sortFn : List LongRecord → List LongRecord)
    (hsort : SortsByDate sortFn) (fs : String → Option Grid) (files : List String) :
    (load_allWith sortFn fs files).1.Pairwise (fun a b => keyOf a ≠ keyOf b)
    ∧ ∀ r ∈ (load_allWith sortFn fs files).1,
        (sortedAllWith sortFn fs files).find? (fun y => decide (keyOf y = keyOf r)) = some r := by
  constructor
  · rw [load_allWith_fst sortFn hsort]
    unfold dropDups
    exact dropDupsAux_pairwise _ _
  · intro r hr
    rw [load_allWith_fst sortFn hsort] at hr
    unfold dropDups at hr
    have h1 := find?_of_pairwise (dropDupsAux_pairwise (sortedAllWith sortFn fs files) []) hr
    rw [← find?_dropDupsAux (sortedAllWith sortFn fs files) [] (keyOf r) (by simp)]
    exact h1

/-- C5 witness: the stable instantiation satisfies the contract; on the
two-file run the kept duplicate recA1 is the first with its key in that
sort's output. -/
theorem claim5_witness :
    SortsByDate (List.insertionSort recLE)
    ∧ recA1 ∈ (load_allWith (List.insertionSort recLE) fsAB [("a.csv"), ("b.csv")]).1
    ∧ (sortedAllWith (List.insertionSort recLE) fsAB [("a.csv"), ("b.csv")]).find?
        (fun y => decide (keyOf y = keyOf recA1)) = some recA1 :=
  ⟨insertionSort_sorts,
   by decide,
   (claim5_theorem (List.insertionSort recLE) insertionSort_sorts fsAB
     [("a.csv"), ("b.csv")]).2 recA1 (by decide)⟩

/-- C6 counterexample: under the contract-satisfying revSort, the equal-date
records of the concatenation come out reordered (recB1 before recA2, against
first-appearance order), both in the sorted concatenation and in the final
table — tie-order preservation is not guaranteed by the code's unstable
default sort. -/
theorem claim6_counterexample :
    SortsByDate revSort
    ∧ (sortedAllWith revSort fsAB [("a.csv"), ("b.csv")]).filter
        (fun r => decide (r.date = ⟨2015, 7, 1⟩)) ≠
      ((loadLoop fsAB [("a.csv"), ("b.csv")]).1.flatten).filter
        (fun r => decide (r.date = ⟨2015, 7, 1⟩))
    ∧ (load_allWith revSort fsAB [("a.csv"), ("b.csv")]).1 = [recB1, recA2] := by
  refine ⟨revSort_sorts, ?_, ?_⟩ <;> decide

/-- C6 (amended): for every sort satisfying the library contract, the
combined table is sorted non-decreasing by date, and de-duplication preserves
the post-sort relative order (the table is a sublist of the sorted
concatenation); the relative order of equal-date records is whatever
permutation the sort produces and is not guaranteed to preserve
first-appearance order. -/
theorem claim6_theorem (sortFn : List LongRecord → List LongRecord)
    (hsort : SortsByDate sortFn) (fs : String → Option Grid) (files : List String) :
    List.Sorted recLE (load_allWith sortFn fs files).1
    ∧ (load_allWith sortFn fs files).1.Sublist (sortedAllWith sortFn fs files) := by
  constructor
  · rw [load_allWith_fst sortFn hsort]
    unfold dropDups
    exact List.Pairwise.sublist (dropDupsAux_sublist _ _) (hsort _).2
  · rw [load_allWith_fst sortFn hsort]
    unfold dropDups
    exact dropDupsAux_sublist _ _

/-- C6 witness: the stable instantiation satisfies the contract; on the
concrete two-file run the combined table is sorted by date and is a sublist
of the sorted concatenation. -/
theorem claim6_witness :
    SortsByDate (List.insertionSort recLE)
    ∧ List.Sorted recLE (load_allWith (List.insertionSort recLE) fsAB [("a.csv"), ("b.csv")]).1
    ∧ (load_allWith (List.insertionSort recLE) fsAB [("a.csv"), ("b.csv")]).1.Sublist
        (sortedAllWith (List.insertionSort recLE) fsAB [("a.csv"), ("b.csv")]) :=
  ⟨insertionSort_sorts,
   (claim6_theorem (List.insertionSort recLE) insertionSort_sorts fsAB
     [("a.csv"), ("b.csv")]).1,
   (claim6_theorem (List.insertionSort recLE) insertionSort_sorts fsAB
     [("a.csv"), ("b.csv")]).2⟩

/-- C7: during coercion, a row survives the all-absent drop iff at least one
mapped metric cell coerces to a number; every stored melt record has a
non-absent value; and a surviving row yields a record for each of its
non-absent metrics. -/
theorem claim7_theorem (f : Frame) (mcols : List String)
    (rds : List (List (Option String) × HDate)) (rd : List (Option String) × HDate) :
    (rd ∈ dropAllAbsent f mcols rds ↔
      rd ∈ rds ∧ ∃ m ∈ mcols, (numCell (cellOf f rd.1 m)).isSome = true)
    ∧ (∀ r ∈ dropNullValue (meltRecords f mcols (dropAllAbsent f mcols rds)),
        r.value.isSome = true)
    ∧ (∀ m ∈ mcols, rd ∈ rds → (numCell (cellOf f rd.1 m)).isSome = true →
        mkMeltRec f m rd ∈ dropNullValue (meltRecords f mcols (dropAllAbsent f mcols rds))) := by
  refine ⟨?_, ?_, ?_⟩
  · constructor
    · intro h
      have h2 := List.mem_filter.mp h
      refine ⟨h2.1, ?_⟩
      have hp := h2.2
      rw [Bool.not_eq_true'] at hp
      exact exists_some_of_rowAllAbsent_false hp
    · rintro ⟨hmem, m, hm, hsome⟩
      apply List.mem_filter.mpr
      refine ⟨hmem, ?_⟩
      rw [Bool.not_eq_true']
      exact rowAllAbsent_false hm hsome
  · intro r hr
    exact (List.mem_filter.mp hr).2
  · intro m hm hrd hsome
    apply List.mem_filter.mpr
    constructor
    · unfold meltRecords
      rw [List.mem_flatten]
      refine ⟨(dropAllAbsent f mcols rds).map (fun rd => mkMeltRec f m rd),
        List.mem_map_of_mem _ hm, ?_⟩
      refine List.mem_map_of_mem _ ?_
      apply List.mem_filter.mpr
      refine ⟨hrd, ?_⟩
      rw [Bool.not_eq_true']
      exact rowAllAbsent_false hm hsome
    · exact hsome

/-- C7 witness: a row with cases-brought-forward redacted ("*") and
total-expenditure 100 survives and yields exactly the total-expenditure
record, and no cases-brought-forward record. -/
theorem claim7_witness :
    mkMeltRec fW7 ("B. 6. Total GR Expenditure (Dollars)") rdW7 ∈
      dropNullValue (meltRecords fW7 mcolsW7 (dropAllAbsent fW7 mcolsW7 [rdW7]))
    ∧ dropNullValue (meltRecords fW7 mcolsW7 (dropAllAbsent fW7 mcolsW7 [rdW7])) =
        [mkMeltRec fW7 ("B. 6. Total GR Expenditure (Dollars)") rdW7]
    ∧ (mkMeltRec fW7 ("B. 6. Total GR Expenditure (Dollars)") rdW7).value = some 100
    ∧ (mkMeltRec fW7 ("A. 1. Cases brought forward") rdW7).value = none := by
  refine ⟨?_, by decide, by decide, by decide⟩
  exact (claim7_theorem fW7 mcolsW7 [rdW7] rdW7).2.2
    ("B. 6. Total GR Expenditure (Dollars)") (by decide) (by decide) (by decide)

/-- C8: every record stored in the combined table has a present (non-null)
numeric value. -/
theorem claim8_theorem (fs : String → Option Grid) (files : List String) (r : LongRecord)
    (hr : r ∈ (load_all fs files).1) : r.value.isSome = true := by
  rw [load_all_fst] at hr
  unfold dropDups at hr
  have h1 : r ∈ sortedAll fs files := mem_of_mem_dropDupsAux hr
  have h2 : r ∈ (loadLoop fs files).1.flatten := by
    have hperm := List.perm_insertionSort recLE ((loadLoop fs files).1.flatten)
    apply hperm.mem_iff.mp
    unfold sortedAll sortedAllWith at h1
    exact h1
  rcases List.mem_flatten.mp h2 with ⟨L, hL, hrL⟩
  rcases loadLoop_frames_src fs files L hL with ⟨f, hsome⟩
  exact processFile_value hsome r hrL

/-- C8 witness: the concrete record loaded from a.csv is in the table and its
value is present. -/
theorem claim8_witness :
    recA1 ∈ (load_all fsA [("a.csv")]).1 ∧ recA1.value.isSome = true :=
  ⟨by decide, claim8_theorem fsA [("a.csv")] recA1 (by decide)⟩

/-- C9: loading never fails as a whole: for every file in the list, if its
pipeline excludes it the run's log contains an entry naming that file, and if
it succeeds every record key it produced is present in the combined table
(records from other valid files are kept). -/
theorem claim9_theorem (fs : String → Option Grid) (files : List String) (fname : String)
    (hmem : fname ∈ files) :
    ((processFile fs fname).1 = none →
      ∃ l ∈ (load_all fs files).2, ∃ rest, l = fname ++ rest)
    ∧ (∀ recs, (processFile fs fname).1 = some recs → ∀ r ∈ recs,
        ∃ q ∈ (load_all fs files).1, keyOf q = keyOf r) := by
  constructor
  · intro _
    rcases processFile_log fs fname with ⟨l, hl, rest, hr⟩
    refine ⟨l, ?_, rest, hr⟩
    rw [load_all_snd]
    exact loadLoop_logs_mem fs files fname l hmem hl
  · intro recs hrecs r hr
    have hframes : recs ∈ (loadLoop fs files).1 :=
      loadLoop_frames_mem fs files fname recs hmem hrecs
    have hjoin : r ∈ (loadLoop fs files).1.flatten := List.mem_flatten.mpr ⟨recs, hframes, hr⟩
    have hsort : r ∈ sortedAll fs files := by
      unfold sortedAll sortedAllWith
      exact ((List.perm_insertionSort recLE _).mem_iff).mpr hjoin
    rcases key_cover [] ⟨r, hsort, rfl⟩ with h1 | ⟨q, hq, hk⟩
    · simp at h1
    · refine ⟨q, ?_, hk⟩
      rw [load_all_fst]
      unfold dropDups
      exact hq

/-- C9 witness: with a.csv missing and b.csv valid, the log names a.csv and
the combined table still has b.csv's records. -/
theorem claim9_witness :
    (∃ l ∈ (load_all fsW9 [("a.csv"), ("b.csv")]).2, ∃ rest, l = ("a.csv") ++ rest)
    ∧ (load_all fsW9 [("a.csv"), ("b.csv")]).1 ≠ [] := by
  refine ⟨?_, by decide⟩
  exact (claim9_theorem fsW9 [("a.csv"), ("b.csv")] ("a.csv") (by decide)).1 (by decide)

/-- C10: when no Report_Month column is present at the reshaping stage, the
synthesized column holds the %b %Y rendering of each row's resolved date, and
every stored melt record then carries exactly that report-month identifier
alongside its date. -/
theorem claim10_theorem (f : Frame) (dates : List HDate)
    (hrm : f.cols.contains ("Report_Month") = false)
    (hrect : ∀ row ∈ f.rows, row.length = f.cols.length) :
    (∀ rd ∈ (map_metric_columns (addReportMonth f dates)).rows.zip dates,
        cellOf (map_metric_columns (addReportMonth f dates)) rd.1 ("Report_Month") =
          some (fmtMonYear rd.2))
    ∧ ∀ (g : Frame) (mcols : List String) (rds : List (List (Option String) × HDate)),
        (∀ rd ∈ rds, cellOf g rd.1 ("Report_Month") = some (fmtMonYear rd.2)) →
        ∀ r ∈ dropNullValue (meltRecords g mcols rds),
          r.report_month = some (fmtMonYear r.date) := by
  constructor
  · intro rd hrd
    have hadd : addReportMonth f dates =
        addCol f ("Report_Month") (dates.map (fun d => some (fmtMonYear d))) := by
      unfold addReportMonth
      rw [hrm]
      simp
    have hrmlabel : mapMetricLabel ("Report_Month") = ("Report_Month") := by decide
    have hcols : (map_metric_columns (addReportMonth f dates)).cols =
        f.cols.map mapMetricLabel ++ [("Report_Month")] := by
      rw [hadd]
      unfold map_metric_columns addCol
      simp [List.map_append, hrmlabel]
    have hrows : (map_metric_columns (addReportMonth f dates)).rows =
        List.zipWith (fun r v => r ++ [v]) f.rows
          (dates.map (fun d => some (fmtMonYear d))) := by
      rw [hadd]
      rfl
    have hne : ∀ x ∈ f.cols.map mapMetricLabel, (x == ("Report_Month")) = false := by
      intro x hx
      rcases List.mem_map.mp hx with ⟨c, hcmem, hceq⟩
      have hcne : c ≠ ("Report_Month") := by
        intro hceq2
        have hcontains : f.cols.contains ("Report_Month") = true :=
          List.elem_eq_true_of_mem (hceq2 ▸ hcmem)
        rw [hrm] at hcontains
        exact Bool.false_ne_true hcontains
      rw [← hceq]
      exact beq_eq_false_iff_ne.mpr (mapMetricLabel_ne_rm c hcne)
    have hidx : idxOf? ("Report_Month") (map_metric_columns (addReportMonth f dates)).cols =
        some f.cols.length := by
      rw [hcols, idxOf?_append_self _ _ hne]
      simp
    rw [hrows] at hrd
    unfold cellOf
    rw [hidx]
    exact zipRM f.cols.length f.rows dates hrect rd hrd
  · intro g mcols rds hcell r hr
    have hr2 := (List.mem_filter.mp hr).1
    unfold meltRecords at hr2
    rcases List.mem_flatten.mp hr2 with ⟨block, hblock, hrb⟩
    rcases List.mem_map.mp hblock with ⟨m, hm, hbeq⟩
    rw [← hbeq] at hrb
    rcases List.mem_map.mp hrb with ⟨rd, hrd, hre⟩
    subst hre
    exact hcell rd hrd

/-- C10 witness: a frame with no Report_Month column gets the synthesized cell
"Jul 2015" for its July 2015 row. -/
theorem claim10_witness :
    fW10.cols.contains ("Report_Month") = false
    ∧ cellOf (map_metric_columns (addReportMonth fW10 datesW10)) rdW10.1 ("Report_Month") =
        some (fmtMonYear rdW10.2)
    ∧ fmtMonYear (⟨2015, 7, 1⟩ : HDate) = ("Jul 2015") := by
  refine ⟨by decide, ?_, by decide⟩
  exact (claim10_theorem fW10 datesW10 (by decide) (by decide)).1 rdW10 (by decide)
